import Mathlib

/-!
Verification of the tg-post-bot publishing/scheduling/mutation engine
(src/main.py) against its natural-language specification.

Modelling conventions (shallow embedding):
* Python strings are modelled as `List Char` (`Str`): `len` is `List.length`,
  slicing `s[:n]` is `List.take n`, `startswith` is `List.isPrefixOf`.
* Python truthiness of `Optional[str]` values (`if photo_file_id:`) is
  `optTruthy`: `None` and the empty string are falsy.
* Timestamps (`datetime` values and unix seconds) are modelled as `Int`
  seconds; `timedelta(seconds=30)` is the integer `30`.
* The `buttons_json` TEXT column is modelled as the button list itself,
  since the bot always writes it with `json.dumps` and reads it back with
  `json.loads` and no claim concerns the JSON encoding.
* The chat-platform client (spec section 6) is modelled by a `Channel`
  state: `send_message` / `send_photo` append a message with a fresh id,
  `edit_message_text` succeeds exactly on an existing text message,
  `edit_message_caption` succeeds exactly on an existing photo message
  (Bot API: a message cannot change kind by editing), and
  `delete_message` removes the message when present.  Remote-send
  failures of the scheduler path are modelled abstractly by the success
  predicate passed to `scheduler_tick`.
-/

abbrev Str := List Char

/-- Python truthiness of an `Optional[str]`: `None` and `""` are falsy. -/
def optTruthy : Option String → Bool
  | none => false
  | some s => !s.isEmpty

/-- Telegram photo caption limit, `CAPTION_LIMIT = 1024` in main.py. -/
def CAPTION_LIMIT : Nat := 1024

/-- Telegram text message limit, `TEXT_LIMIT = 4096` in main.py. -/
def TEXT_LIMIT : Nat := 4096

/-- Embeds `caption_too_long` (main.py line 171): `len(text) > CAPTION_LIMIT`. -/
def caption_too_long (text : Str) : Bool := text.length > CAPTION_LIMIT

/-- Embeds the short-caption expression used by `publish`, the previews and
`cb_post_apply_edit` (e.g. main.py line 696):
`(text[:CAPTION_LIMIT - 3] + "…") if len(text) > CAPTION_LIMIT else text`. -/
def short_caption (text : Str) : Str :=
  if text.length > CAPTION_LIMIT then text.take (CAPTION_LIMIT - 3) ++ ['…'] else text

/- ================== Button-line parser (main.py lines 82-111) ================= -/

/-- Whitespace predicate used to model Python `str.strip`. -/
def isWS (c : Char) : Bool := c.isWhitespace

/-- Embeds Python `str.strip()`: drop whitespace from both ends. -/
def pyStrip (s : Str) : Str :=
  ((s.dropWhile isWS).reverse.dropWhile isWS).reverse

/-- Embeds Python `line.split(sep, 1)` at the first occurrence of `sep`,
returning `none` when `sep` does not occur (`sep in line` is false). -/
def splitFirst (sep : Str) : Str → Option (Str × Str)
  | [] => if sep.isEmpty then some ([], []) else none
  | c :: rest =>
    if sep.isPrefixOf (c :: rest) then
      some ([], (c :: rest).drop sep.length)
    else
      match splitFirst sep rest with
      | some (a, b) => some (c :: a, b)
      | none => none

/-- Embeds Python `sep in line`. -/
def strContains (sep line : Str) : Bool := (splitFirst sep line).isSome

/-- The spaced separators tried in priority order (main.py line 93). -/
def buttonSeps : List Str := [" - ".toList, " — ".toList, " – ".toList, " | ".toList]

/-- URL scheme accepted by the parser. -/
def httpPrefix : Str := "http://".toList

/-- Second URL scheme accepted by the parser. -/
def httpsPrefix : Str := "https://".toList

/-- Embeds the accept-and-truncate step of `parse_buttons` (main.py lines
107-110): trim both halves, keep the line only when the title is non-empty
and the url starts with `http://` or `https://`, truncating the title to 64
characters. -/
def mkButton : Option (Str × Str) → Option (Str × Str)
  | none => none
  | some (t, u) =>
    let title := pyStrip t
    let url := pyStrip u
    if title ≠ [] ∧ (httpPrefix.isPrefixOf url ∨ httpsPrefix.isPrefixOf url) then
      some (title.take 64, url)
    else
      none

/-- Embeds the per-line body of the `parse_buttons` loop (main.py lines
88-110): strip the line, skip it when blank, find the first spaced separator
occurring in the line (priority order), split at its first occurrence, fall
back to a bare `-`, then validate via `mkButton`. -/
def parseButtonLine (raw : Str) : Option (Str × Str) :=
  let line := pyStrip raw
  if line = [] then none
  else
    match buttonSeps.find? (fun sep => strContains sep line) with
    | some sep => mkButton (splitFirst sep line)
    | none =>
      if strContains ['-'] line then mkButton (splitFirst ['-'] line) else none

/-- Embeds `parse_buttons` (main.py lines 82-111) with the input given as its
list of lines (`text.splitlines()`): accepted lines in input order. -/
def parse_buttons (lines : List Str) : List (Str × Str) :=
  lines.filterMap parseButtonLine

/- ================== Job table and scheduling ================== -/

/-- Row of the `jobs` table (main.py lines 208-219): columns `id`,
`channel_id`, `text`, `buttons_json`, `photo_file_id`, `run_at`,
`created_by`, `created_at`.  There is no split-mode column. -/
structure Job where
  id : String
  channel_id : String
  text : Str
  buttons : List (Str × Str)
  photo_file_id : Option String
  run_at : Int
  created_by : Int
  created_at : Int
  deriving DecidableEq, Repr

/-- Embeds the job-id expression of `finalize_schedule` (main.py line 814):
the f-string `{int(now_tz().timestamp())}_{target.from_user.id}` — a
time-based prefix joined to the sender's user id by an underscore. -/
def mk_job_id (ts : Int) (user_id : Int) : String :=
  toString ts ++ "_" ++ toString user_id

/-- Outcome of `finalize_schedule` (main.py lines 797-829). -/
inductive SchedOutcome where
  /-- `CHANNEL_ID` empty: state is cleared and no job is written. -/
  | noChannel : SchedOutcome
  /-- Time guard failed: the handler returns with a re-prompt; the FSM
  state is not cleared and no job row is inserted. -/
  | rejected : SchedOutcome
  /-- The `INSERT INTO jobs` hit an existing primary key (asyncpg raises
  UniqueViolationError, uncaught in the handler). -/
  | insertError : SchedOutcome
  /-- Job committed: the new jobs table and the new job id. -/
  | committed (jobs : List Job) (job_id : String) : SchedOutcome
  deriving DecidableEq, Repr

/-- Embeds `finalize_schedule` (main.py lines 797-829): guard on an empty
`CHANNEL_ID`, then the time guard `run_at <= now_tz() + timedelta(seconds=30)`
(rejecting with a re-prompt), then `INSERT INTO jobs` with the id built by
`mk_job_id` (primary-key violation when the id already exists). -/
def finalize_schedule (jobs : List Job) (channel_id : String) (run_at now : Int)
    (text : Str) (buttons : List (Str × Str)) (photo : Option String)
    (user_id : Int) : SchedOutcome :=
  if channel_id = "" then .noChannel
  else if run_at ≤ now + 30 then .rejected
  else
    let jid := mk_job_id now user_id
    if jobs.any (fun j => j.id = jid) then .insertError
    else .committed
      (jobs ++ [⟨jid, channel_id, text, buttons, photo, run_at, user_id, now⟩]) jid

/-- Embeds `UPDATE jobs SET text=$1, buttons_json=$2, photo_file_id=$3 WHERE
id=$4` from `cb_job_apply_edit` (main.py lines 1071-1076): the content-edit
path of a scheduled job. -/
def job_apply_edit (jobs : List Job) (job_id : String) (new_text : Str)
    (new_buttons : List (Str × Str)) (photo : Option String) : List Job :=
  jobs.map fun j =>
    if j.id = job_id then
      { j with text := new_text, buttons := new_buttons, photo_file_id := photo }
    else j

/-- Embeds `UPDATE jobs SET run_at=$1 WHERE id=$2` from the dedicated move
operation (main.py lines 1149 and 1177). -/
def job_move (jobs : List Job) (job_id : String) (new_run_at : Int) : List Job :=
  jobs.map fun j => if j.id = job_id then { j with run_at := new_run_at } else j

/-- Insertion step of the run_at-ascending sort used to model
`ORDER BY run_at ASC`. -/
def insertByRunAt (j : Job) : List Job → List Job
  | [] => [j]
  | k :: ks => if j.run_at ≤ k.run_at then j :: k :: ks else k :: insertByRunAt j ks

/-- Insertion sort by `run_at`, modelling `ORDER BY run_at ASC`. -/
def sortByRunAt : List Job → List Job
  | [] => []
  | j :: js => insertByRunAt j (sortByRunAt js)

/-- Embeds the due-job query of `scheduler_loop` (main.py lines 1557-1564):
`SELECT ... FROM jobs WHERE run_at <= $1 ORDER BY run_at ASC LIMIT 20`. -/
def fetchDue (jobs : List Job) (now : Int) : List Job :=
  (sortByRunAt (jobs.filter (fun j => j.run_at ≤ now))).take 20

/-- Embeds one tick of `scheduler_loop` (main.py lines 1551-1594): fetch the
due batch, and for each job in it attempt the publish; on success the job row
is deleted (`DELETE FROM jobs WHERE id=$1`), on any exception the loop only
logs and moves on, leaving the row in place.  `ok j.id` tells whether the
publish call for that job succeeds (remote failures are external). -/
def scheduler_tick (jobs : List Job) (now : Int) (ok : String → Bool) : List Job :=
  let fired := ((fetchDue jobs now).filter (fun j => ok j.id)).map (fun j => j.id)
  jobs.filter (fun j => !fired.contains j.id)

/-- Embeds the split-mode recomputation of `scheduler_loop` (main.py line
1573): `split_text = bool(photo_file_id and caption_too_long(text))`. -/
def sched_split (photo : Option String) (text : Str) : Bool :=
  optTruthy photo && caption_too_long text

/- ================== Channel (chat-platform client) ================== -/

/-- Kind of a live channel message: Bot API editing cannot change it. -/
inductive MsgKind where
  | textMsg : MsgKind
  | photoMsg : MsgKind
  deriving DecidableEq, Repr

/-- A live message in the channel: its message id, kind, the photo file
reference when it is a photo message, its text or caption, and the inline
keyboard buttons attached to it (empty list models `reply_markup=None`). -/
structure ChanMsg where
  mid : Nat
  kind : MsgKind
  photo : Option String
  content : Str
  buttons : List (Str × Str)
  deriving DecidableEq, Repr

/-- Channel state: the live messages and the next fresh message id. -/
structure Channel where
  msgs : List ChanMsg
  nextId : Nat
  deriving DecidableEq, Repr

/-- Well-formedness: every live message id is below `nextId`, so a freshly
sent message never collides with an existing one. -/
def Channel.wf (ch : Channel) : Prop := ∀ m ∈ ch.msgs, m.mid < ch.nextId

instance (ch : Channel) : Decidable ch.wf := by
  unfold Channel.wf; infer_instance

/-- Point lookup of a live message by message id. -/
def Channel.find (ch : Channel) (mid : Nat) : Option ChanMsg :=
  ch.msgs.find? (fun m => m.mid = mid)

/-- Models `bot.send_message` / `bot.send_photo`: appends a message with a
fresh id and returns the new channel state and the new message id. -/
def send (ch : Channel) (k : MsgKind) (photo : Option String) (content : Str)
    (buttons : List (Str × Str)) : Channel × Nat :=
  (⟨ch.msgs ++ [⟨ch.nextId, k, photo, content, buttons⟩], ch.nextId + 1⟩, ch.nextId)

/-- Per-message update used by the edit operations. -/
def updMsg (mid : Nat) (content : Str) (buttons : List (Str × Str))
    (m : ChanMsg) : ChanMsg :=
  if m.mid = mid then { m with content := content, buttons := buttons } else m

/-- Models an in-place edit call against message `mid` expecting kind `k`:
it succeeds (returning the new channel) exactly when the message exists and
has kind `k`, and fails (`none`, i.e. the Bot API raises) otherwise. -/
def editMsg (ch : Channel) (mid : Nat) (k : MsgKind) (content : Str)
    (buttons : List (Str × Str)) : Option Channel :=
  match ch.find mid with
  | some m =>
    if m.kind = k then some ⟨ch.msgs.map (updMsg mid content buttons), ch.nextId⟩
    else none
  | none => none

/-- Models `bot.edit_message_text`: only an existing text message has text
to edit. -/
def editText (ch : Channel) (mid : Nat) (content : Str)
    (buttons : List (Str × Str)) : Option Channel :=
  editMsg ch mid .textMsg content buttons

/-- Models `bot.edit_message_caption`: only an existing photo message has a
caption to edit. -/
def editCaption (ch : Channel) (mid : Nat) (content : Str)
    (buttons : List (Str × Str)) : Option Channel :=
  editMsg ch mid .photoMsg content buttons

/-- Models `bot.delete_message` with the error swallowed when the message is
missing (the code always wraps deletion in try/except where it matters). -/
def deleteMsg (ch : Channel) (mid : Nat) : Channel :=
  ⟨ch.msgs.filter (fun m => m.mid ≠ mid), ch.nextId⟩

/- ================== Publisher (main.py lines 675-716) ================== -/

/-- Row of the `posts` table (main.py lines 220-232): columns `id`,
`channel_id`, `message_id`, `text_msg_id`, `text`, `buttons_json`,
`photo_file_id`, `created_by`. -/
structure PostRow where
  id : String
  channel_id : String
  message_id : Nat
  text_msg_id : Option Nat
  text : Str
  buttons : List (Str × Str)
  photo_file_id : Option String
  created_by : Int
  deriving DecidableEq, Repr

/-- Embeds the post-id expression of `publish` (main.py line 708):
`f"{int(now_tz().timestamp())}_{created_by}_{main_message_id}"`. -/
def mk_post_id (ts : Int) (created_by : Int) (mid : Nat) : String :=
  toString ts ++ "_" ++ toString created_by ++ "_" ++ toString mid

/-- Embeds `publish` (main.py lines 675-716): with a photo and split mode it
sends the photo with the short caption and no buttons plus a separate text
message with the full text and the buttons; with a photo and no split it
sends one photo message with the full text as caption and the buttons; with
no photo it sends one text message; then it inserts the Post row, with
`text_msg_id` set only on the split path. -/
def publish (ch : Channel) (channel_id : String) (text : Str)
    (buttons : List (Str × Str)) (created_by : Int) (photo : Option String)
    (split_text : Bool) (ts : Int) : Channel × PostRow :=
  if optTruthy photo then
    if split_text then
      let s1 := send ch .photoMsg photo (short_caption text) []
      let s2 := send s1.1 .textMsg none text buttons
      (s2.1, ⟨mk_post_id ts created_by s1.2, channel_id, s1.2, some s2.2,
              text, buttons, photo, created_by⟩)
    else
      let s1 := send ch .photoMsg photo text buttons
      (s1.1, ⟨mk_post_id ts created_by s1.2, channel_id, s1.2, none,
              text, buttons, photo, created_by⟩)
  else
    let s1 := send ch .textMsg none text buttons
    (s1.1, ⟨mk_post_id ts created_by s1.2, channel_id, s1.2, none,
            text, buttons, photo, created_by⟩)

/-- Embeds the per-job publish call of `scheduler_loop` (main.py lines
1566-1583): the split flag is recomputed by `sched_split` from the stored
text and photo; no stored flag is read, because the jobs table has none. -/
def run_job (ch : Channel) (j : Job) (ts : Int) : Channel × PostRow :=
  publish ch j.channel_id j.text j.buttons j.created_by j.photo_file_id
    (sched_split j.photo_file_id j.text) ts

/- ================== Mutator (main.py lines 1417-1547) ================== -/

/-- Result of `cb_post_apply_edit`: whether an exception escaped to the
outer handler (which only reports the error), together with the Post row
and channel state as left behind (partial effects included). -/
structure EditOutcome where
  err : Bool
  row : PostRow
  chan : Channel
  deriving DecidableEq, Repr

/-- Best-effort deletion of the stored text message (`try
bot.delete_message(... p["text_msg_id"]) except: pass`), shared by the
no-photo and photo-without-split branches of `cb_post_apply_edit` (main.py
lines 1442-1446 and 1511-1515). -/
def delOldText (p : PostRow) (ch : Channel) : Channel :=
  match p.text_msg_id with
  | some tid => deleteMsg ch tid
  | none => ch

/-- Embeds the no-photo branch of `cb_post_apply_edit` (main.py lines
1441-1460): best-effort delete of the stored text message if any, then
`edit_message_text` on the primary message (an exception here reaches the
outer handler and the row is left untouched), then
`UPDATE posts SET text, buttons_json, photo_file_id=NULL, text_msg_id=NULL`. -/
def applyEditNoPhoto (p : PostRow) (ch : Channel) (new_text : Str)
    (new_buttons : List (Str × Str)) : EditOutcome :=
  match editText (delOldText p ch) p.message_id new_text new_buttons with
  | none => ⟨true, p, delOldText p ch⟩
  | some ch2 =>
    ⟨false,
     { p with text := new_text, buttons := new_buttons,
              photo_file_id := none, text_msg_id := none }, ch2⟩

/-- Embeds the caption step shared by the photo branches of
`cb_post_apply_edit` (main.py lines 1466-1480 and 1517-1531), on a
(channel, row) state: try `edit_message_caption` on the primary message; on
failure, best-effort delete it, send a fresh photo message, and
`UPDATE posts SET message_id=$1`. -/
def editCaptionStep (st : Channel × PostRow) (photo : Option String)
    (cap : Str) (buttons : List (Str × Str)) : Channel × PostRow :=
  match editCaption st.1 st.2.message_id cap buttons with
  | some ch2 => (ch2, st.2)
  | none =>
    ((send (deleteMsg st.1 st.2.message_id) .photoMsg photo cap buttons).1,
     { st.2 with
         message_id := (send (deleteMsg st.1 st.2.message_id) .photoMsg photo cap buttons).2 })

/-- Embeds the text-message step of the split branch of
`cb_post_apply_edit` (main.py lines 1482-1501), on a (channel, row) state:
if a text message is stored, try `edit_message_text` on it, falling back to
delete-and-resend with `UPDATE posts SET text_msg_id=$1`; otherwise send a
fresh text message and store its id. -/
def editTextStep (st : Channel × PostRow) (new_text : Str)
    (new_buttons : List (Str × Str)) : Channel × PostRow :=
  match st.2.text_msg_id with
  | some tid =>
    match editText st.1 tid new_text new_buttons with
    | some ch2 => (ch2, st.2)
    | none =>
      ((send (deleteMsg st.1 tid) .textMsg none new_text new_buttons).1,
       { st.2 with
           text_msg_id := some (send (deleteMsg st.1 tid) .textMsg none new_text new_buttons).2 })
  | none =>
    ((send st.1 .textMsg none new_text new_buttons).1,
     { st.2 with text_msg_id := some (send st.1 .textMsg none new_text new_buttons).2 })

/-- Embeds the photo-with-split branch of `cb_post_apply_edit` (main.py
lines 1463-1508): caption step with the short caption and no markup, text
step with the full text and the buttons, then the content-field update
`UPDATE posts SET text, buttons_json, photo_file_id`. -/
def applyEditSplit (p : PostRow) (ch : Channel) (new_text : Str)
    (new_buttons : List (Str × Str)) (photo : Option String) : EditOutcome :=
  ⟨false,
   { (editTextStep (editCaptionStep (ch, p) photo (short_caption new_text) [])
        new_text new_buttons).2 with
       text := new_text, buttons := new_buttons, photo_file_id := photo },
   (editTextStep (editCaptionStep (ch, p) photo (short_caption new_text) [])
      new_text new_buttons).1⟩

/-- Embeds the photo-without-split branch of `cb_post_apply_edit` (main.py
lines 1510-1538): best-effort delete of the stored text message if any,
caption step with the full text and the buttons, then
`UPDATE posts SET text, buttons_json, photo_file_id, text_msg_id=NULL`. -/
def applyEditKeep (p : PostRow) (ch : Channel) (new_text : Str)
    (new_buttons : List (Str × Str)) (photo : Option String) : EditOutcome :=
  ⟨false,
   { (editCaptionStep (delOldText p ch, p) photo new_text new_buttons).2 with
       text := new_text, buttons := new_buttons,
       photo_file_id := photo, text_msg_id := none },
   (editCaptionStep (delOldText p ch, p) photo new_text new_buttons).1⟩

/-- Embeds `cb_post_apply_edit` (main.py lines 1417-1547) applied to the
loaded Post row `p`: branch on `if not photo_file_id`, then on
`split_text`. -/
def apply_edit (p : PostRow) (ch : Channel) (new_text : Str)
    (new_buttons : List (Str × Str)) (photo : Option String)
    (split_text : Bool) : EditOutcome :=
  if optTruthy photo = false then applyEditNoPhoto p ch new_text new_buttons
  else if split_text then applyEditSplit p ch new_text new_buttons photo
  else applyEditKeep p ch new_text new_buttons photo

/- ================== Concrete instances for closed statements ============ -/

/-- A channel holding a single photo message with id 10. -/
def chanPhotoEx : Channel := ⟨[⟨10, .photoMsg, some "F", "old".toList, []⟩], 11⟩

/-- The Post row of the photo post live in `chanPhotoEx` (non-split). -/
def postPhotoEx : PostRow := ⟨"1_2_10", "chan", 10, none, "old".toList, [], some "F", 2⟩

/-- A channel holding a single text message with id 5. -/
def chanTextEx : Channel := ⟨[⟨5, .textMsg, none, "old".toList, []⟩], 6⟩

/-- The Post row of the text post live in `chanTextEx`. -/
def postTextEx : PostRow := ⟨"1_2_5", "chan", 5, none, "old".toList, [], none, 2⟩

/-- A due job used in scheduler witnesses. -/
def jobEx1 : Job := ⟨"100_1", "chan", "hello".toList, [], none, 100, 1, 50⟩

/-- A second due job used in scheduler witnesses. -/
def jobEx2 : Job := ⟨"101_1", "chan", "world".toList, [], none, 101, 1, 50⟩

/- ================== Helper lemmas ================== -/

/-- Mapping a pointwise-projection-preserving function under a map. -/
theorem map_comp_pointwise {α β : Type _} (f : α → α) (g : α → β)
    (h : ∀ a, g (f a) = g a) (l : List α) : (l.map f).map g = l.map g := by
  induction l with
  | nil => rfl
  | cons x xs ih => simp [h, ih]

/-- A find? over a prefix with no match continues in the suffix. -/
theorem find?_append_of_none {α : Type _} {p : α → Bool} {l1 : List α}
    (l2 : List α) (h : l1.find? p = none) :
    (l1 ++ l2).find? p = l2.find? p := by
  induction l1 with
  | nil => rfl
  | cons x xs ih =>
    rw [List.find?_eq_none] at h
    have hx : p x = false := by
      have := h x (by simp)
      simp [this]
    rw [List.cons_append, List.find?_cons_of_neg _ (by simp [hx])]
    exact ih (List.find?_eq_none.mpr (fun a ha => h a (by simp [ha])))

/-- The message-content update preserves the message id. -/
theorem updMsg_mid (mid : Nat) (c : Str) (b : List (Str × Str)) (m : ChanMsg) :
    (updMsg mid c b m).mid = m.mid := by
  unfold updMsg; split <;> rfl

/-- The message-content update preserves the message kind. -/
theorem updMsg_kind (mid : Nat) (c : Str) (b : List (Str × Str)) (m : ChanMsg) :
    (updMsg mid c b m).kind = m.kind := by
  unfold updMsg; split <;> rfl

/-- Point lookup commutes with the in-place content update. -/
theorem find?_map_updMsg (msgs : List ChanMsg) (mid : Nat) (c : Str)
    (b : List (Str × Str)) (mid2 : Nat) :
    (msgs.map (updMsg mid c b)).find? (fun m => m.mid = mid2) =
      (msgs.find? (fun m => m.mid = mid2)).map (updMsg mid c b) := by
  induction msgs with
  | nil => rfl
  | cons m ms ih =>
    by_cases h : m.mid = mid2
    · rw [List.map_cons, List.find?_cons_of_pos _ (by simp [updMsg_mid, h]),
          List.find?_cons_of_pos _ (by simp [h]), Option.map_some']
    · rw [List.map_cons, List.find?_cons_of_neg _ (by simp [updMsg_mid, h]),
          List.find?_cons_of_neg _ (by simp [h]), ih]

/-- Two channels with the same message kinds everywhere. -/
def sameKinds (ch1 ch2 : Channel) : Prop :=
  ∀ mid, (ch1.find mid).map ChanMsg.kind = (ch2.find mid).map ChanMsg.kind

/-- When the target message exists with the expected kind, the edit call
succeeds and returns the content-updated channel. -/
theorem editMsg_eq_some {ch : Channel} {mid : Nat} {k : MsgKind} {m : ChanMsg}
    (hm : ch.find mid = some m) (hk : m.kind = k) (c : Str) (b : List (Str × Str)) :
    editMsg ch mid k c b = some ⟨ch.msgs.map (updMsg mid c b), ch.nextId⟩ := by
  unfold editMsg
  rw [hm]
  simp [hk]

/-- An existing-with-kind fact extracted from a kind-level lookup. -/
theorem find_kind_eq_some {ch : Channel} {mid : Nat} {k : MsgKind}
    (h : (ch.find mid).map ChanMsg.kind = some k) :
    ∃ m, ch.find mid = some m ∧ m.kind = k := by
  cases hm : ch.find mid with
  | none => rw [hm] at h; simp at h
  | some m =>
    rw [hm] at h
    exact ⟨m, rfl, by simpa using h⟩

/-- The content-updated channel has the same message kinds as the original. -/
theorem updChannel_sameKinds (ch : Channel) (mid : Nat) (c : Str)
    (b : List (Str × Str)) :
    sameKinds ⟨ch.msgs.map (updMsg mid c b), ch.nextId⟩ ch := by
  intro mid2
  show ((ch.msgs.map (updMsg mid c b)).find? (fun m => m.mid = mid2)).map ChanMsg.kind
      = (ch.msgs.find? (fun m => m.mid = mid2)).map ChanMsg.kind
  rw [find?_map_updMsg, Option.map_map]
  cases ch.msgs.find? (fun m => m.mid = mid2) with
  | none => rfl
  | some m => simp [updMsg_kind]

/- ================== Claim C1 ================== -/

/-- Claim C1 counterexample: at `now = 0` a `run_at` of exactly `now + 30`
seconds is rejected with a re-prompt by `finalize_schedule` (the guard is
`run_at <= now + 30`), contradicting the claim that exactly `now + 30s` is
accepted and commits a Job. -/
theorem finalize_schedule_boundary_cex :
    finalize_schedule [] "chan" 30 0 "hi".toList [] none 42 = .rejected ∧
    SchedOutcome.rejected ≠
      .committed [⟨mk_job_id 0 42, "chan", "hi".toList, [], none, 30, 42, 0⟩]
        (mk_job_id 0 42) := by
  constructor
  · rfl
  · intro h
    cases h

/-- Claim C1 (amended): with a configured channel, a `run_at` less than or
equal to `now + 30` seconds — including exactly `now + 30` — is rejected
with a re-prompt and the draft state does not advance, while a `run_at`
strictly greater than `now + 30` (i.e. `now + 31` or later) is accepted and
commits a Job carrying that `run_at`, provided the generated job id is
fresh. -/
theorem finalize_schedule_lead_boundary (jobs : List Job) (cid : String)
    (run_at now : Int) (text : Str) (btns : List (Str × Str))
    (photo : Option String) (uid : Int) (hcid : cid ≠ "") :
    (run_at ≤ now + 30 →
      finalize_schedule jobs cid run_at now text btns photo uid = .rejected) ∧
    (now + 30 < run_at →
      jobs.any (fun j => j.id = mk_job_id now uid) = false →
      finalize_schedule jobs cid run_at now text btns photo uid =
        .committed
          (jobs ++ [⟨mk_job_id now uid, cid, text, btns, photo, run_at, uid, now⟩])
          (mk_job_id now uid)) := by
  constructor
  · intro h
    unfold finalize_schedule
    rw [if_neg hcid, if_pos h]
  · intro h1 h2
    unfold finalize_schedule
    rw [if_neg hcid, if_neg (by omega)]
    simp [h2]

/-- Claim C1 witness: at `now = 0`, a `run_at` of 29 is rejected and a
`run_at` of 31 commits a Job with that `run_at`. -/
theorem finalize_schedule_lead_boundary_witness :
    finalize_schedule [] "chan" 29 0 "hi".toList [] none 42 = .rejected ∧
    finalize_schedule [] "chan" 31 0 "hi".toList [] none 42 =
      .committed [⟨mk_job_id 0 42, "chan", "hi".toList, [], none, 31, 42, 0⟩]
        (mk_job_id 0 42) := by
  refine ⟨?_, ?_⟩
  · exact (finalize_schedule_lead_boundary [] "chan" 29 0 "hi".toList [] none 42
      (by decide)).1 (by decide)
  · exact (finalize_schedule_lead_boundary [] "chan" 31 0 "hi".toList [] none 42
      (by decide)).2 (by decide) (by decide)

/- ================== Claim C5 ================== -/

/-- Claim C5 counterexample: two schedule commits by operator 42 within the
same second (`now = 0`) generate the same job id, so the second insert hits
the primary key and raises, rather than producing a distinct id as the
claim states. -/
theorem job_id_same_second_collision_cex :
    mk_job_id 0 42 = mk_job_id 0 42 ∧
    finalize_schedule [] "chan" 100 0 "hi".toList [] none 42 =
      .committed [(⟨mk_job_id 0 42, "chan", "hi".toList, [], none, 100, 42, 0⟩ : Job)]
        (mk_job_id 0 42) ∧
    finalize_schedule [(⟨mk_job_id 0 42, "chan", "hi".toList, [], none, 100, 42, 0⟩ : Job)]
      "chan" 100 0 "hi".toList [] none 42 = .insertError := by
  refine ⟨rfl, ?_, ?_⟩ <;> rfl

/-- Claim C5 (amended): the Job id generated by the schedule-commit
operation is the unix-second timestamp joined to the creating operator's
user id — a time-based prefix plus the operator id, with no random suffix —
so two schedule commits by the same operator within the same second produce
the identical id, and the second `INSERT INTO jobs` fails on the duplicate
primary key instead of committing. -/
theorem job_id_structure (jobs : List Job) (cid : String) (run_at now : Int)
    (text : Str) (btns : List (Str × Str)) (photo : Option String) (uid : Int) :
    (mk_job_id now uid = toString now ++ "_" ++ toString uid) ∧
    (cid ≠ "" → now + 30 < run_at →
      (∃ j ∈ jobs, j.id = mk_job_id now uid) →
      finalize_schedule jobs cid run_at now text btns photo uid = .insertError) := by
  refine ⟨rfl, ?_⟩
  intro hcid h1 h2
  unfold finalize_schedule
  rw [if_neg hcid, if_neg (by omega)]
  have hany : jobs.any (fun j => j.id = mk_job_id now uid) = true := by
    obtain ⟨j, hj, hid⟩ := h2
    exact List.any_eq_true.mpr ⟨j, hj, by simp [hid]⟩
  simp [hany]

/-- Claim C5 witness: a jobs table already holding the id generated at
`now = 0` by operator 42 makes the next commit by the same operator in the
same second fail with the duplicate-key error. -/
theorem job_id_structure_witness :
    finalize_schedule [⟨mk_job_id 0 42, "chan", "hi".toList, [], none, 100, 42, 0⟩]
      "chan" 100 0 "hi".toList [] none 42 = .insertError := by
  exact (job_id_structure [⟨mk_job_id 0 42, "chan", "hi".toList, [], none, 100, 42, 0⟩]
    "chan" 100 0 "hi".toList [] none 42).2 (by decide) (by decide)
    ⟨⟨mk_job_id 0 42, "chan", "hi".toList, [], none, 100, 42, 0⟩, by simp, rfl⟩

/- ================== Claim C9 ================== -/

/-- Claim C9: the content-edit path of a scheduled job (`cb_job_apply_edit`)
updates only text, buttons and photo: the `run_at` (and id) of every row is
unchanged, for any new content; and the dedicated move operation updates
only `run_at`, leaving id, text, buttons and photo of every row unchanged. -/
theorem job_edit_preserves_run_at (jobs : List Job) (jid : String) (t : Str)
    (b : List (Str × Str)) (ph : Option String) (rt : Int) :
    ((job_apply_edit jobs jid t b ph).map Job.run_at = jobs.map Job.run_at ∧
     (job_apply_edit jobs jid t b ph).map Job.id = jobs.map Job.id) ∧
    ((job_move jobs jid rt).map Job.id = jobs.map Job.id ∧
     (job_move jobs jid rt).map Job.text = jobs.map Job.text ∧
     (job_move jobs jid rt).map Job.buttons = jobs.map Job.buttons ∧
     (job_move jobs jid rt).map Job.photo_file_id = jobs.map Job.photo_file_id) := by
  refine ⟨⟨?_, ?_⟩, ?_, ?_, ?_, ?_⟩ <;>
    exact map_comp_pointwise _ _ (fun j => by split <;> rfl) jobs

/- ================== Claim C10 ================== -/

/-- Claim C10: the scheduler recomputes the split flag for a due job as
"photo present AND text longer than the caption limit" from the stored
columns alone (the jobs table has no split column), so the rendering of a
scheduled post is a deterministic function of the job's stored content:
two jobs equal on channel, text, buttons, photo and creator publish
identically, whatever their id, `run_at` or creation time. -/
theorem scheduled_render_deterministic (j1 j2 : Job) (ch : Channel) (ts : Int)
    (hc : j1.channel_id = j2.channel_id) (ht : j1.text = j2.text)
    (hb : j1.buttons = j2.buttons) (hp : j1.photo_file_id = j2.photo_file_id)
    (hcb : j1.created_by = j2.created_by) :
    (sched_split j1.photo_file_id j1.text =
      (optTruthy j1.photo_file_id && decide (j1.text.length > CAPTION_LIMIT))) ∧
    run_job ch j1 ts = run_job ch j2 ts := by
  refine ⟨rfl, ?_⟩
  unfold run_job
  rw [hc, ht, hb, hp, hcb]

/-- Claim C10 witness: two concrete jobs with the same stored content but
different ids, `run_at` and creation times publish identically. -/
theorem scheduled_render_deterministic_witness :
    sched_split jobEx1.photo_file_id jobEx1.text =
      (optTruthy jobEx1.photo_file_id && decide (jobEx1.text.length > CAPTION_LIMIT)) ∧
    run_job ⟨[], 0⟩ jobEx1 7 =
      run_job ⟨[], 0⟩ ⟨"999_9", "chan", "hello".toList, [], none, 999, 1, 900⟩ 7 := by
  exact scheduled_render_deterministic jobEx1
    ⟨"999_9", "chan", "hello".toList, [], none, 999, 1, 900⟩ ⟨[], 0⟩ 7
    rfl rfl rfl rfl rfl

/- ================== Claim C7 ================== -/

/-- An accepted button has a trimmed 64-truncated label and a url that
passed the scheme check. -/
theorem mkButton_some {o : Option (Str × Str)} {t u : Str}
    (h : mkButton o = some (t, u)) :
    (httpPrefix.isPrefixOf u ∨ httpsPrefix.isPrefixOf u) ∧ t.length ≤ 64 := by
  match o with
  | none => simp [mkButton] at h
  | some (a, b) =>
    simp only [mkButton] at h
    split at h
    · rename_i hcond
      rw [Option.some.injEq, Prod.mk.injEq] at h
      obtain ⟨ht, hu⟩ := h
      refine ⟨?_, ?_⟩
      · rw [← hu]; exact hcond.2
      · rw [← ht]; exact (List.length_take _ _).trans_le (min_le_left _ _)
    · exact absurd h (by simp)

/-- Every line the parser keeps went through `mkButton`. -/
theorem parseButtonLine_some {raw t u : Str}
    (h : parseButtonLine raw = some (t, u)) :
    (httpPrefix.isPrefixOf u ∨ httpsPrefix.isPrefixOf u) ∧ t.length ≤ 64 := by
  simp only [parseButtonLine] at h
  split at h
  · exact absurd h (by simp)
  · split at h
    · exact mkButton_some h
    · split at h
      · exact mkButton_some h
      · exact absurd h (by simp)

/-- Claim C7: the button-line parser processes lines independently and in
order (it distributes over concatenation of line lists, so the output
preserves input line order), and every `(label, url)` pair it outputs has a
url starting with `http://` or `https://` and a label of at most 64
characters; lines failing the url check never appear in the output. -/
theorem parse_buttons_wellformed (l1 l2 lines : List Str) (t u : Str)
    (hmem : (t, u) ∈ parse_buttons lines) :
    parse_buttons (l1 ++ l2) = parse_buttons l1 ++ parse_buttons l2 ∧
    ((httpPrefix.isPrefixOf u ∨ httpsPrefix.isPrefixOf u) ∧ t.length ≤ 64) := by
  refine ⟨List.filterMap_append l1 l2 parseButtonLine, ?_⟩
  obtain ⟨raw, _, hline⟩ := List.mem_filterMap.mp hmem
  exact parseButtonLine_some hline

/-- Claim C7 witness: on a concrete three-line input with one well-formed
line, one separator-free line and one non-http line, the parser keeps
exactly the well-formed pair, which satisfies the url and label bounds. -/
theorem parse_buttons_wellformed_witness :
    parse_buttons (["Click - https://x.com".toList] ++ ["bad line".toList]) =
      parse_buttons ["Click - https://x.com".toList] ++
        parse_buttons ["bad line".toList] ∧
    ((httpPrefix.isPrefixOf "https://x.com".toList ∨
        httpsPrefix.isPrefixOf "https://x.com".toList) ∧
      ("Click".toList : Str).length ≤ 64) := by
  exact parse_buttons_wellformed ["Click - https://x.com".toList] ["bad line".toList]
    ["Click - https://x.com".toList, "lbl - ftp://x".toList]
    "Click".toList "https://x.com".toList (by decide)

/- ================== Claim C4 ================== -/

/-- Membership in the insertion step of the run_at sort. -/
theorem mem_insertByRunAt {j x : Job} {l : List Job} :
    x ∈ insertByRunAt j l ↔ x = j ∨ x ∈ l := by
  induction l with
  | nil => simp [insertByRunAt]
  | cons k ks ih =>
    unfold insertByRunAt
    split
    · simp [List.mem_cons]
    · simp only [List.mem_cons, ih]
      tauto

/-- The run_at sort reorders without adding or removing jobs. -/
theorem mem_sortByRunAt {x : Job} {l : List Job} :
    x ∈ sortByRunAt l ↔ x ∈ l := by
  induction l with
  | nil => simp [sortByRunAt]
  | cons j js ih => simp [sortByRunAt, mem_insertByRunAt, ih, List.mem_cons]

/-- The insertion step grows the list by one. -/
theorem length_insertByRunAt (j : Job) (l : List Job) :
    (insertByRunAt j l).length = l.length + 1 := by
  induction l with
  | nil => rfl
  | cons k ks ih =>
    unfold insertByRunAt
    split
    · rfl
    · simp [ih]

/-- The run_at sort preserves length. -/
theorem length_sortByRunAt (l : List Job) :
    (sortByRunAt l).length = l.length := by
  induction l with
  | nil => rfl
  | cons j js ih => simp [sortByRunAt, length_insertByRunAt, ih]

/-- A job whose publish fails is never removed by a tick. -/
theorem mem_tick_of_fail {jobs : List Job} {now : Int} {ok : String → Bool}
    {j : Job} (hj : j ∈ jobs) (hfail : ok j.id = false) :
    j ∈ scheduler_tick jobs now ok := by
  refine List.mem_filter.mpr ⟨hj, ?_⟩
  simp only [Bool.not_eq_true']
  by_contra hcon
  rw [Bool.not_eq_false, List.contains_iff_exists_mem_beq] at hcon
  obtain ⟨i, hi, hbeq⟩ := hcon
  obtain ⟨x, hx, hxid⟩ := List.mem_map.mp hi
  have hok := (List.mem_filter.mp hx).2
  rw [beq_iff_eq] at hbeq
  rw [hxid, ← hbeq] at hok
  rw [hok] at hfail
  cases hfail

/-- Claim C4: in a scheduler tick, a due job whose publish succeeds is
deleted, while a job whose publish raises is left in place unchanged (the
same row is still in the table); a failed job that is due again at the time
of a subsequent tick is in that tick's due set, and is in its fetched batch
whenever the due set fits the batch bound of 20.  A job is never deleted
after a failed publish attempt. -/
theorem scheduler_failed_job_retained (jobs : List Job) (now now2 : Int)
    (ok : String → Bool) (j : Job) :
    (j ∈ jobs → ok j.id = false → j ∈ scheduler_tick jobs now ok) ∧
    (j ∈ fetchDue jobs now → ok j.id = true → j ∉ scheduler_tick jobs now ok) ∧
    (j ∈ jobs → ok j.id = false → j.run_at ≤ now2 →
      j ∈ (scheduler_tick jobs now ok).filter (fun x => x.run_at ≤ now2) ∧
      (((scheduler_tick jobs now ok).filter (fun x => x.run_at ≤ now2)).length ≤ 20 →
        j ∈ fetchDue (scheduler_tick jobs now ok) now2)) := by
  refine ⟨fun hj hfail => mem_tick_of_fail hj hfail, ?_, ?_⟩
  · intro hdue hok hmem
    have h2 := (List.mem_filter.mp hmem).2
    rw [Bool.not_eq_true', Bool.eq_false_iff] at h2
    apply h2
    rw [List.contains_iff_exists_mem_beq]
    refine ⟨j.id, List.mem_map.mpr ⟨j, List.mem_filter.mpr ⟨hdue, hok⟩, rfl⟩, ?_⟩
    exact beq_iff_eq.mpr rfl
  · intro hj hfail hd2
    have hmem : j ∈ (scheduler_tick jobs now ok).filter (fun x => x.run_at ≤ now2) :=
      List.mem_filter.mpr ⟨mem_tick_of_fail hj hfail, by simpa using hd2⟩
    refine ⟨hmem, fun hlen => ?_⟩
    unfold fetchDue
    rw [List.take_of_length_le (by rw [length_sortByRunAt]; exact hlen)]
    exact mem_sortByRunAt.mpr hmem

/-- Claim C4 witness: with two due jobs where only the first publish
succeeds, the failed job survives the tick and is fetched again on the next
tick, while the successful one is deleted. -/
theorem scheduler_failed_job_retained_witness :
    (jobEx2 ∈ scheduler_tick [jobEx1, jobEx2] 200 (fun i => i == "100_1")) ∧
    (jobEx1 ∉ scheduler_tick [jobEx1, jobEx2] 200 (fun i => i == "100_1")) ∧
    jobEx2 ∈ (scheduler_tick [jobEx1, jobEx2] 200 (fun i => i == "100_1")).filter
        (fun x => x.run_at ≤ 220) ∧
    jobEx2 ∈ fetchDue (scheduler_tick [jobEx1, jobEx2] 200 (fun i => i == "100_1")) 220 := by
  have h := scheduler_failed_job_retained [jobEx1, jobEx2] 200 220
    (fun i => i == "100_1") jobEx2
  have h1 := scheduler_failed_job_retained [jobEx1, jobEx2] 200 220
    (fun i => i == "100_1") jobEx1
  have h3 := h.2.2 (by decide) (by decide) (by decide)
  exact ⟨h.1 (by decide) (by decide),
         h1.2.1 (by decide) (by decide),
         h3.1, h3.2 (by decide)⟩

/- ================== Claim C3 ================== -/

/-- The text-message step of the split edit branch always leaves a stored
text-message id on the row. -/
theorem editTextStep_isSome (st : Channel × PostRow) (nt : Str)
    (nb : List (Str × Str)) :
    ((editTextStep st nt nb).2.text_msg_id).isSome = true := by
  unfold editTextStep
  cases h : st.2.text_msg_id with
  | none => simp
  | some tid =>
    cases he : editText st.1 tid nt nb with
    | none => simp [he]
    | some ch2 => simp [he, h]

/-- Claim C3: every Post row written by the Publisher has `text_msg_id` set
iff it was rendered in split mode (photo present and split flag on), and a
row for a post with no photo never has one; every row left by a successful
Mutator pass has `text_msg_id` set iff the pass replaced/edited in split
mode, and never when the resulting row has no photo. -/
theorem text_msg_id_iff_split_mode (ch : Channel) (cid : String) (text : Str)
    (btns : List (Str × Str)) (cb : Int) (photo : Option String) (s : Bool)
    (ts : Int) (p : PostRow) (nt : Str) (nb : List (Str × Str))
    (np : Option String) (s2 : Bool) :
    (((publish ch cid text btns cb photo s ts).2.text_msg_id ≠ none ↔
        (optTruthy photo = true ∧ s = true)) ∧
     (optTruthy photo = false →
        (publish ch cid text btns cb photo s ts).2.text_msg_id = none)) ∧
    ((apply_edit p ch nt nb np s2).err = false →
      (((apply_edit p ch nt nb np s2).row.text_msg_id ≠ none ↔
          (optTruthy np = true ∧ s2 = true)) ∧
       (optTruthy (apply_edit p ch nt nb np s2).row.photo_file_id = false →
          (apply_edit p ch nt nb np s2).row.text_msg_id = none))) := by
  constructor
  · by_cases hp : optTruthy photo = true
    · by_cases hs : s = true
      · subst hs
        simp [publish, hp]
      · rw [Bool.not_eq_true] at hs
        subst hs
        simp [publish, hp]
    · rw [Bool.not_eq_true] at hp
      simp [publish, hp]
  · intro herr
    by_cases hp : optTruthy np = true
    · by_cases hs : s2 = true
      · subst hs
        rw [apply_edit, if_neg (by simp [hp]), if_pos rfl] at herr ⊢
        unfold applyEditSplit
        have hsome := editTextStep_isSome
          (editCaptionStep (ch, p) np (short_caption nt) []) nt nb
        refine ⟨⟨fun _ => ⟨hp, rfl⟩, fun _ => ?_⟩, fun hcon => ?_⟩
        · show ((editTextStep _ nt nb).2.text_msg_id ≠ none)
          exact Option.isSome_iff_ne_none.mp hsome
        · rw [show (optTruthy np = false) from hcon] at hp
          cases hp
      · rw [Bool.not_eq_true] at hs
        subst hs
        rw [apply_edit, if_neg (by simp [hp]), if_neg (by simp)] at herr ⊢
        unfold applyEditKeep
        refine ⟨⟨fun hcon => absurd rfl hcon, fun hcon => absurd hcon.2 (by simp)⟩,
                fun _ => rfl⟩
    · rw [Bool.not_eq_true] at hp
      rw [apply_edit, if_pos hp] at herr ⊢
      unfold applyEditNoPhoto at herr ⊢
      cases he : editText (delOldText p ch) p.message_id nt nb with
      | none => rw [he] at herr; simp at herr
      | some ch2 =>
        exact ⟨⟨fun hcon => absurd rfl hcon, fun hcon => absurd hcon.1 (by simp [hp])⟩,
               fun _ => rfl⟩

/-- Claim C3 witness: a no-photo publish stores no `text_msg_id`; a split
publish stores one; a successful no-photo edit of a live text post leaves
none on the row. -/
theorem text_msg_id_iff_split_mode_witness :
    ((publish ⟨[], 0⟩ "chan" "hi".toList [] 1 none false 0).2.text_msg_id = none) ∧
    ((publish ⟨[], 0⟩ "chan" "hi".toList [] 1 (some "F") true 0).2.text_msg_id ≠ none) ∧
    ((apply_edit postTextEx chanTextEx "new".toList [] none false).row.text_msg_id
      = none) := by
  have h1 := (text_msg_id_iff_split_mode ⟨[], 0⟩ "chan" "hi".toList [] 1 none false 0
    postPhotoEx "new".toList [] (some "F") false).1.2 (by decide)
  have h2 := (text_msg_id_iff_split_mode ⟨[], 0⟩ "chan" "hi".toList [] 1 (some "F") true 0
    postPhotoEx "new".toList [] (some "F") false).1.1.mpr ⟨by decide, rfl⟩
  have h3 := ((text_msg_id_iff_split_mode chanTextEx "chan" "hi".toList [] 1 none false 0
    postTextEx "new".toList [] none false).2 (by decide)).2 (by decide)
  exact ⟨h1, h2, h3⟩

/- ================== Claim C2 ================== -/

/-- An edit call against a message of the wrong kind fails. -/
theorem editMsg_eq_none {ch : Channel} {mid : Nat} {k : MsgKind} {m : ChanMsg}
    (hm : ch.find mid = some m) (hk : m.kind ≠ k) (c : Str)
    (b : List (Str × Str)) : editMsg ch mid k c b = none := by
  unfold editMsg
  rw [hm]
  simp [hk]

/-- Claim C2 counterexample: editing the published photo post
`postPhotoEx` (photo message id 10 live in `chanPhotoEx`) to remove its
photo is a topology-changing edit, yet the Mutator does not delete the old
message or send a fresh one: it attempts `edit_message_text` on the photo
message, which fails, and the error surfaces with the Post row and the
channel both unchanged — the stored photo differs from the new empty one,
and `message_id` still points at the untouched old message. -/
theorem remove_photo_no_replace_cex :
    apply_edit postPhotoEx chanPhotoEx "new".toList [] none false =
      ⟨true, postPhotoEx, chanPhotoEx⟩ ∧
    postPhotoEx.photo_file_id ≠ none ∧
    chanPhotoEx.find postPhotoEx.message_id ≠ none := by
  refine ⟨rfl, by decide, by decide⟩

/-- Claim C2 (amended): there is no `replace_required` computation; in-place
edits are attempted first and structural replacement happens only through
the failed-edit fallback of the photo branches.  The claim's Scenario C
still holds: editing a published non-photo post (live text message, no
stored text message id) to add a photo makes the caption-edit attempt fail,
upon which the Mutator deletes the old message, sends a fresh photo message
carrying the new content, and overwrites the Post row with the new content
and the fresh `message_id`, the post id staying the same.  (Removing the
photo from a published photo post, by contrast, fails with a surfaced error
and changes nothing — see the counterexample.) -/
theorem add_photo_replaces_message (p : PostRow) (ch : Channel) (nt : Str)
    (nb : List (Str × Str)) (np : Option String) (hwf : ch.wf)
    (hmain : (ch.find p.message_id).map ChanMsg.kind = some MsgKind.textMsg)
    (htid : p.text_msg_id = none) (hnp : optTruthy np = true) :
    (apply_edit p ch nt nb np false).err = false ∧
    (apply_edit p ch nt nb np false).row =
      ⟨p.id, p.channel_id, ch.nextId, none, nt, nb, np, p.created_by⟩ ∧
    ch.nextId ≠ p.message_id ∧
    (apply_edit p ch nt nb np false).chan.find p.message_id = none ∧
    (apply_edit p ch nt nb np false).chan.find ch.nextId =
      some ⟨ch.nextId, MsgKind.photoMsg, np, nt, nb⟩ := by
  obtain ⟨m, hm, hk⟩ := find_kind_eq_some hmain
  have hmem : m ∈ ch.msgs := List.mem_of_find?_eq_some hm
  have hmid : m.mid = p.message_id := by
    have h := List.find?_some hm
    exact of_decide_eq_true h
  have hlt : p.message_id < ch.nextId := hmid ▸ hwf m hmem
  have hfail : editCaption ch p.message_id nt nb = none :=
    editMsg_eq_none hm (by rw [hk]; intro hcon; cases hcon) nt nb
  rw [apply_edit, if_neg (by simp [hnp]), if_neg (by simp)]
  unfold applyEditKeep
  simp only [delOldText, htid]
  unfold editCaptionStep
  simp only [hfail, send, deleteMsg, Channel.find]
  refine ⟨by trivial, by trivial, by omega, ?_, ?_⟩
  · rw [List.find?_eq_none]
    intro a ha
    rcases List.mem_append.mp ha with h1 | h2
    · have h := (List.mem_filter.mp h1).2
      simpa using h
    · rw [List.mem_singleton] at h2
      subst h2
      simp
      omega
  · rw [find?_append_of_none]
    · simp
    · rw [List.find?_eq_none]
      intro a ha
      have hamem : a ∈ ch.msgs := (List.mem_filter.mp ha).1
      have := hwf a hamem
      simp
      omega

/-- Claim C2 witness: adding the photo `F` to the published text post
`postTextEx` (text message id 5 live in `chanTextEx`) succeeds, deletes
message 5, sends the fresh photo message 6, and rewrites the row with
`message_id = 6` and the same post id. -/
theorem add_photo_replaces_message_witness :
    (apply_edit postTextEx chanTextEx "new".toList [] (some "F") false).err = false ∧
    (apply_edit postTextEx chanTextEx "new".toList [] (some "F") false).row =
      ⟨"1_2_5", "chan", 6, none, "new".toList, [], some "F", 2⟩ ∧
    (6 : Nat) ≠ 5 ∧
    (apply_edit postTextEx chanTextEx "new".toList [] (some "F") false).chan.find 5 = none ∧
    (apply_edit postTextEx chanTextEx "new".toList [] (some "F") false).chan.find 6 =
      some ⟨6, MsgKind.photoMsg, some "F", "new".toList, []⟩ := by
  exact add_photo_replaces_message postTextEx chanTextEx "new".toList [] (some "F")
    (by decide) (by decide) (by decide) (by decide)

/- ================== Claim C6 ================== -/

/-- A find? whose match lies in the prefix also answers for the append. -/
theorem find?_append_of_some {α : Type _} {p : α → Bool} {l1 : List α} {a : α}
    (l2 : List α) (h : l1.find? p = some a) :
    (l1 ++ l2).find? p = some a := by
  induction l1 with
  | nil => cases h
  | cons x xs ih =>
    by_cases hx : p x = true
    · rw [List.find?_cons_of_pos _ hx] at h
      rw [List.cons_append, List.find?_cons_of_pos _ hx]
      exact h
    · rw [List.find?_cons_of_neg _ hx] at h
      rw [List.cons_append, List.find?_cons_of_neg _ hx]
      exact ih h

/-- No message of a well-formed channel matches a fresh id. -/
theorem find?_msgs_fresh {ch : Channel} (hwf : ch.wf) {n : Nat}
    (hn : ch.nextId ≤ n) :
    ch.msgs.find? (fun m => m.mid = n) = none := by
  rw [List.find?_eq_none]
  intro a ha
  have := hwf a ha
  simp
  omega

/-- Claim C6 counterexample: publishing a 2000-character text with a photo
in split mode puts on the photo message a caption that is NOT the text
sliced to `limit - 1 = 1023` characters plus an ellipsis: the code slices
to `CAPTION_LIMIT - 3 = 1021` characters, so the caption has 1022
characters, not ~1023. -/
theorem split_caption_slice_cex :
    ((publish ⟨[], 0⟩ "c" (List.replicate 2000 'a') [] 1 (some "F") true 0).1.find
        (publish ⟨[], 0⟩ "c" (List.replicate 2000 'a') [] 1 (some "F") true 0).2.message_id).map
      ChanMsg.content ≠
      some ((List.replicate 2000 'a').take 1023 ++ ['…']) ∧
    ((publish ⟨[], 0⟩ "c" (List.replicate 2000 'a') [] 1 (some "F") true 0).1.find
        (publish ⟨[], 0⟩ "c" (List.replicate 2000 'a') [] 1 (some "F") true 0).2.message_id).map
      (fun m => m.content.length) = some 1022 := by
  have hfind : (publish ⟨[], 0⟩ "c" (List.replicate 2000 'a') [] 1 (some "F") true 0).1.find
      (publish ⟨[], 0⟩ "c" (List.replicate 2000 'a') [] 1 (some "F") true 0).2.message_id =
      some ⟨0, MsgKind.photoMsg, some "F", short_caption (List.replicate 2000 'a'), []⟩ := rfl
  have hsc : short_caption (List.replicate 2000 'a') =
      (List.replicate 2000 'a').take 1021 ++ ['…'] := by
    unfold short_caption
    rw [if_pos (by rw [List.length_replicate]; decide)]
    norm_num [CAPTION_LIMIT]
  constructor
  · rw [hfind, Option.map_some']
    dsimp only
    rw [hsc]
    intro h
    have h1 := Option.some.inj h
    have h2 := congrArg List.length h1
    rw [List.length_append, List.length_append, List.length_take,
        List.length_take, List.length_replicate] at h2
    omega
  · rw [hfind, Option.map_some']
    dsimp only
    rw [hsc, List.length_append, List.length_take, List.length_replicate]
    rfl

/-- Claim C6 (amended): whenever a photo post is rendered in split mode
with text longer than the caption limit (1024), the caption placed on the
photo message is the text sliced to `CAPTION_LIMIT - 3 = 1021` characters
followed by an ellipsis (a 1022-character caption, not ~1023), with no
buttons on the photo message, and the second, separate text message carries
the full text and the buttons. -/
theorem split_publish_caption (ch : Channel) (cid : String) (text : Str)
    (btns : List (Str × Str)) (cb : Int) (photo : Option String) (ts : Int)
    (hwf : ch.wf) (hp : optTruthy photo = true)
    (hl : CAPTION_LIMIT < text.length) :
    (publish ch cid text btns cb photo true ts).1.find
        (publish ch cid text btns cb photo true ts).2.message_id =
      some ⟨ch.nextId, MsgKind.photoMsg, photo,
            text.take (CAPTION_LIMIT - 3) ++ ['…'], []⟩ ∧
    (publish ch cid text btns cb photo true ts).2.text_msg_id =
      some (ch.nextId + 1) ∧
    (publish ch cid text btns cb photo true ts).1.find (ch.nextId + 1) =
      some ⟨ch.nextId + 1, MsgKind.textMsg, none, text, btns⟩ := by
  have hsc : short_caption text = text.take (CAPTION_LIMIT - 3) ++ ['…'] := by
    unfold short_caption
    rw [if_pos hl]
  have h1 : ch.msgs.find? (fun m => m.mid = ch.nextId) = none :=
    find?_msgs_fresh hwf (le_refl _)
  have h3 : ch.msgs.find? (fun m => m.mid = ch.nextId + 1) = none :=
    find?_msgs_fresh hwf (by omega)
  refine ⟨?_, ?_, ?_⟩
  · rw [← hsc]
    unfold publish
    rw [hp]
    show ((ch.msgs ++ [(⟨ch.nextId, MsgKind.photoMsg, photo, short_caption text, []⟩ : ChanMsg)]) ++
        [(⟨ch.nextId + 1, MsgKind.textMsg, none, text, btns⟩ : ChanMsg)]).find?
          (fun m => m.mid = ch.nextId) =
      some (⟨ch.nextId, MsgKind.photoMsg, photo, short_caption text, []⟩ : ChanMsg)
    apply find?_append_of_some
    rw [find?_append_of_none _ h1]
    simp
  · unfold publish
    rw [hp]
    rfl
  · unfold publish
    rw [hp]
    show ((ch.msgs ++ [(⟨ch.nextId, MsgKind.photoMsg, photo, short_caption text, []⟩ : ChanMsg)]) ++
        [(⟨ch.nextId + 1, MsgKind.textMsg, none, text, btns⟩ : ChanMsg)]).find?
          (fun m => m.mid = ch.nextId + 1) =
      some (⟨ch.nextId + 1, MsgKind.textMsg, none, text, btns⟩ : ChanMsg)
    rw [find?_append_of_none]
    · simp
    · rw [find?_append_of_none _ h3]
      simp

/-- Claim C6 witness: publishing a concrete 1025-character text with a
photo in split mode yields a photo message whose caption is the 1021-char
slice plus an ellipsis and a second text message with the full text. -/
theorem split_publish_caption_witness :
    (publish ⟨[], 0⟩ "chan" (List.replicate 1025 'a') [] 1 (some "F") true 0).1.find
        (publish ⟨[], 0⟩ "chan" (List.replicate 1025 'a') [] 1 (some "F") true 0).2.message_id =
      some ⟨0, MsgKind.photoMsg, some "F",
            (List.replicate 1025 'a').take (CAPTION_LIMIT - 3) ++ ['…'], []⟩ ∧
    (publish ⟨[], 0⟩ "chan" (List.replicate 1025 'a') [] 1 (some "F") true 0).2.text_msg_id =
      some 1 ∧
    (publish ⟨[], 0⟩ "chan" (List.replicate 1025 'a') [] 1 (some "F") true 0).1.find 1 =
      some ⟨1, MsgKind.textMsg, none, List.replicate 1025 'a', []⟩ := by
  exact split_publish_caption ⟨[], 0⟩ "chan" (List.replicate 1025 'a') [] 1 (some "F") 0
    (fun m hm => absurd hm (List.not_mem_nil m))
    (by decide)
    (by rw [List.length_replicate]; decide)

/- ================== Claim C8 ================== -/

/-- Kind-preservation composes. -/
theorem sameKinds_trans {a b c : Channel} (h1 : sameKinds a b)
    (h2 : sameKinds b c) : sameKinds a c :=
  fun mid => (h1 mid).trans (h2 mid)

/-- An edit against a message known (at kind level) to have the expected
kind succeeds, returning the content-updated channel, which preserves every
message kind. -/
theorem edit_on_kind {ch : Channel} {mid : Nat} {k : MsgKind}
    (h : (ch.find mid).map ChanMsg.kind = some k) (c : Str)
    (b : List (Str × Str)) :
    editMsg ch mid k c b = some ⟨ch.msgs.map (updMsg mid c b), ch.nextId⟩ ∧
    sameKinds ⟨ch.msgs.map (updMsg mid c b), ch.nextId⟩ ch := by
  obtain ⟨m, hm, hk⟩ := find_kind_eq_some h
  exact ⟨editMsg_eq_some hm hk c b, updChannel_sameKinds ch mid c b⟩

/-- With no stored text message the best-effort deletion is a no-op. -/
theorem delOldText_none {p : PostRow} (ch : Channel)
    (ht : p.text_msg_id = none) : delOldText p ch = ch := by
  unfold delOldText
  rw [ht]

/-- The caption step reduces to the in-place caption edit when it succeeds. -/
theorem editCaptionStep_of_some {ch ch2 : Channel} {p : PostRow}
    (photo : Option String) {cap : Str} {btns : List (Str × Str)}
    (h : editCaption ch p.message_id cap btns = some ch2) :
    editCaptionStep (ch, p) photo cap btns = (ch2, p) := by
  unfold editCaptionStep
  simp only [h]

/-- The text step reduces to the in-place text edit when the stored text
message exists and the edit succeeds. -/
theorem editTextStep_of_edit {ch ch2 : Channel} {p : PostRow} {tid : Nat}
    {nt : Str} {nb : List (Str × Str)}
    (h1 : p.text_msg_id = some tid) (h2 : editText ch tid nt nb = some ch2) :
    editTextStep (ch, p) nt nb = (ch2, p) := by
  unfold editTextStep
  simp only [h1, h2]

/-- The no-photo branch on a stored single text message edits in place:
no error, only content fields updated, kinds preserved. -/
theorem applyEditNoPhoto_inplace (p : PostRow) (ch : Channel) (nt : Str)
    (nb : List (Str × Str)) (ht : p.text_msg_id = none)
    (hmain : (ch.find p.message_id).map ChanMsg.kind = some MsgKind.textMsg) :
    ∃ ch2, applyEditNoPhoto p ch nt nb =
        ⟨false,
         { p with text := nt, buttons := nb, photo_file_id := none, text_msg_id := none },
         ch2⟩ ∧
      sameKinds ch2 ch := by
  obtain ⟨heq, hsk⟩ := edit_on_kind hmain nt nb
  refine ⟨⟨ch.msgs.map (updMsg p.message_id nt nb), ch.nextId⟩, ?_, hsk⟩
  unfold applyEditNoPhoto
  rw [delOldText_none ch ht]
  simp only [editText, heq]

/-- The photo-without-split branch on a stored non-split photo post edits
the caption in place: no error, only content fields updated, kinds
preserved. -/
theorem applyEditKeep_inplace (p : PostRow) (ch : Channel) (nt : Str)
    (nb : List (Str × Str)) (np : Option String) (ht : p.text_msg_id = none)
    (hmain : (ch.find p.message_id).map ChanMsg.kind = some MsgKind.photoMsg) :
    ∃ ch2, applyEditKeep p ch nt nb np =
        ⟨false,
         { p with text := nt, buttons := nb, photo_file_id := np, text_msg_id := none },
         ch2⟩ ∧
      sameKinds ch2 ch := by
  obtain ⟨heq, hsk⟩ := edit_on_kind hmain nt nb
  refine ⟨⟨ch.msgs.map (updMsg p.message_id nt nb), ch.nextId⟩, ?_, hsk⟩
  unfold applyEditKeep
  rw [delOldText_none ch ht]
  rw [editCaptionStep_of_some np
    (show editCaption ch p.message_id nt nb = some _ from heq)]

/-- The split branch on a stored split photo post edits both messages in
place: no error, only content fields updated, kinds preserved. -/
theorem applyEditSplit_inplace (p : PostRow) (ch : Channel) (nt : Str)
    (nb : List (Str × Str)) (np : Option String) (tid : Nat)
    (ht : p.text_msg_id = some tid)
    (hmain : (ch.find p.message_id).map ChanMsg.kind = some MsgKind.photoMsg)
    (htid : (ch.find tid).map ChanMsg.kind = some MsgKind.textMsg) :
    ∃ ch3, applyEditSplit p ch nt nb np =
        ⟨false,
         { p with text := nt, buttons := nb, photo_file_id := np },
         ch3⟩ ∧
      sameKinds ch3 ch := by
  obtain ⟨heq1, hsk1⟩ := edit_on_kind hmain (short_caption nt) []
  have htid2 : (((⟨ch.msgs.map (updMsg p.message_id (short_caption nt) []),
      ch.nextId⟩ : Channel)).find tid).map ChanMsg.kind = some MsgKind.textMsg :=
    (hsk1 tid).trans htid
  obtain ⟨heq2, hsk2⟩ := edit_on_kind htid2 nt nb
  refine ⟨_, ?_, sameKinds_trans hsk2 hsk1⟩
  unfold applyEditSplit
  rw [editCaptionStep_of_some np
    (show editCaption ch p.message_id (short_caption nt) [] = some _ from heq1)]
  rw [editTextStep_of_edit ht
    (show editText _ tid nt nb = some _ from heq2)]

/-- Claim C8: applying the same non-structural edit (same photo presence
and same split mode as the stored row, stored messages live with their
kinds) to a published Post twice yields the same final Post row as applying
it once, and both applications leave `message_id` and `text_msg_id`
unchanged; the in-place path updates only content fields. -/
theorem nonstructural_edit_idempotent (p : PostRow) (ch : Channel) (nt : Str)
    (nb : List (Str × Str)) (np : Option String) (s : Bool)
    (hphoto : optTruthy np = optTruthy p.photo_file_id)
    (hsplit : s = p.text_msg_id.isSome)
    (hinv : p.text_msg_id.isSome = true → optTruthy p.photo_file_id = true)
    (hmain : (ch.find p.message_id).map ChanMsg.kind =
      some (if optTruthy p.photo_file_id = true then MsgKind.photoMsg
            else MsgKind.textMsg))
    (htid : ∀ tid, p.text_msg_id = some tid →
      (ch.find tid).map ChanMsg.kind = some MsgKind.textMsg) :
    (apply_edit p ch nt nb np s).err = false ∧
    (apply_edit p ch nt nb np s).row.message_id = p.message_id ∧
    (apply_edit p ch nt nb np s).row.text_msg_id = p.text_msg_id ∧
    (apply_edit p ch nt nb np s).row.id = p.id ∧
    (apply_edit (apply_edit p ch nt nb np s).row (apply_edit p ch nt nb np s).chan
        nt nb np s).err = false ∧
    (apply_edit (apply_edit p ch nt nb np s).row (apply_edit p ch nt nb np s).chan
        nt nb np s).row = (apply_edit p ch nt nb np s).row := by
  by_cases hp : optTruthy p.photo_file_id = true
  · have hnp : optTruthy np = true := by rw [hphoto]; exact hp
    have hmainP : (ch.find p.message_id).map ChanMsg.kind = some MsgKind.photoMsg := by
      rw [hp] at hmain
      rwa [if_pos rfl] at hmain
    cases htm : p.text_msg_id with
    | some tid =>
      have hs : s = true := by rw [hsplit, htm]; rfl
      subst hs
      have hbr : ∀ (q : PostRow) (c : Channel),
          apply_edit q c nt nb np true = applyEditSplit q c nt nb np := by
        intro q c
        rw [apply_edit, if_neg (by simp [hnp]), if_pos rfl]
      obtain ⟨c2, heq1, hsk1⟩ := applyEditSplit_inplace p ch nt nb np tid htm
        hmainP (htid tid htm)
      have happ1 : apply_edit p ch nt nb np true =
          ⟨false, { p with text := nt, buttons := nb, photo_file_id := np }, c2⟩ :=
        (hbr p ch).trans heq1
      obtain ⟨c3, heq2, hsk2⟩ := applyEditSplit_inplace
        ({ p with text := nt, buttons := nb, photo_file_id := np }) c2 nt nb np tid
        htm ((hsk1 p.message_id).trans hmainP) ((hsk1 tid).trans (htid tid htm))
      have happ2 : apply_edit
          ({ p with text := nt, buttons := nb, photo_file_id := np }) c2 nt nb np true =
          ⟨false, { p with text := nt, buttons := nb, photo_file_id := np }, c3⟩ :=
        (hbr _ _).trans heq2
      refine ⟨?_, ?_, ?_, ?_, ?_, ?_⟩
      · rw [happ1]
      · rw [happ1]
      · rw [happ1]
        exact htm
      · rw [happ1]
      · rw [happ1]
        dsimp only
        rw [happ2]
      · rw [happ1]
        dsimp only
        rw [happ2]
    | none =>
      have hs : s = false := by rw [hsplit, htm]; rfl
      subst hs
      have hbr : ∀ (q : PostRow) (c : Channel),
          apply_edit q c nt nb np false = applyEditKeep q c nt nb np := by
        intro q c
        rw [apply_edit, if_neg (by simp [hnp]), if_neg Bool.false_ne_true]
      obtain ⟨c2, heq1, hsk1⟩ := applyEditKeep_inplace p ch nt nb np htm hmainP
      have happ1 : apply_edit p ch nt nb np false =
          ⟨false,
           { p with text := nt, buttons := nb, photo_file_id := np, text_msg_id := none },
           c2⟩ :=
        (hbr p ch).trans heq1
      obtain ⟨c3, heq2, hsk2⟩ := applyEditKeep_inplace
        ({ p with text := nt, buttons := nb, photo_file_id := np, text_msg_id := none })
        c2 nt nb np rfl ((hsk1 p.message_id).trans hmainP)
      have happ2 : apply_edit
          ({ p with text := nt, buttons := nb, photo_file_id := np, text_msg_id := none })
          c2 nt nb np false =
          ⟨false,
           { p with text := nt, buttons := nb, photo_file_id := np, text_msg_id := none },
           c3⟩ :=
        (hbr _ _).trans heq2
      refine ⟨?_, ?_, ?_, ?_, ?_, ?_⟩
      · rw [happ1]
      · rw [happ1]
      · rw [happ1]
      · rw [happ1]
      · rw [happ1]
        dsimp only
        rw [happ2]
      · rw [happ1]
        dsimp only
        rw [happ2]
  · have hp2 : optTruthy p.photo_file_id = false := Bool.eq_false_iff.mpr hp
    have hnp : optTruthy np = false := by rw [hphoto]; exact hp2
    have htm : p.text_msg_id = none := by
      cases htm2 : p.text_msg_id with
      | none => rfl
      | some tid =>
        have h1 := hinv (by rw [htm2]; rfl)
        exact absurd h1 hp
    have hs : s = false := by rw [hsplit, htm]; rfl
    subst hs
    have hmainT : (ch.find p.message_id).map ChanMsg.kind = some MsgKind.textMsg := by
      rw [hp2] at hmain
      rwa [if_neg Bool.false_ne_true] at hmain
    have hbr : ∀ (q : PostRow) (c : Channel),
        apply_edit q c nt nb np false = applyEditNoPhoto q c nt nb := by
      intro q c
      rw [apply_edit, if_pos hnp]
    obtain ⟨c2, heq1, hsk1⟩ := applyEditNoPhoto_inplace p ch nt nb htm hmainT
    have happ1 : apply_edit p ch nt nb np false =
        ⟨false,
         { p with text := nt, buttons := nb, photo_file_id := none, text_msg_id := none },
         c2⟩ :=
      (hbr p ch).trans heq1
    obtain ⟨c3, heq2, hsk2⟩ := applyEditNoPhoto_inplace
      ({ p with text := nt, buttons := nb, photo_file_id := none, text_msg_id := none })
      c2 nt nb rfl ((hsk1 p.message_id).trans hmainT)
    have happ2 : apply_edit
        ({ p with text := nt, buttons := nb, photo_file_id := none, text_msg_id := none })
        c2 nt nb np false =
        ⟨false,
         { p with text := nt, buttons := nb, photo_file_id := none, text_msg_id := none },
         c3⟩ :=
      (hbr _ _).trans heq2
    refine ⟨?_, ?_, ?_, ?_, ?_, ?_⟩
    · rw [happ1]
    · rw [happ1]
    · rw [happ1]
      exact htm.symm
    · rw [happ1]
    · rw [happ1]
      dsimp only
      rw [happ2]
    · rw [happ1]
      dsimp only
      rw [happ2]

/-- Claim C8 witness: re-applying a non-structural edit to the live
non-split photo post `postPhotoEx` succeeds twice, leaves both message ids
unchanged, and the second application returns the same row as the first. -/
theorem nonstructural_edit_idempotent_witness :
    (apply_edit postPhotoEx chanPhotoEx "new".toList [] (some "F") false).err = false ∧
    (apply_edit postPhotoEx chanPhotoEx "new".toList [] (some "F") false).row.message_id
      = postPhotoEx.message_id ∧
    (apply_edit postPhotoEx chanPhotoEx "new".toList [] (some "F") false).row.text_msg_id
      = postPhotoEx.text_msg_id ∧
    (apply_edit postPhotoEx chanPhotoEx "new".toList [] (some "F") false).row.id
      = postPhotoEx.id ∧
    (apply_edit (apply_edit postPhotoEx chanPhotoEx "new".toList [] (some "F") false).row
        (apply_edit postPhotoEx chanPhotoEx "new".toList [] (some "F") false).chan
        "new".toList [] (some "F") false).err = false ∧
    (apply_edit (apply_edit postPhotoEx chanPhotoEx "new".toList [] (some "F") false).row
        (apply_edit postPhotoEx chanPhotoEx "new".toList [] (some "F") false).chan
        "new".toList [] (some "F") false).row =
      (apply_edit postPhotoEx chanPhotoEx "new".toList [] (some "F") false).row := by
  exact nonstructural_edit_idempotent postPhotoEx chanPhotoEx "new".toList [] (some "F")
    false (by decide) (by decide) (by decide) (by decide)
    (fun tid h => by simp [postPhotoEx] at h)
